import Mathlib

set_option maxRecDepth 40000

/-!
# Verification of the column conversion strategy subsystem (`src/column_strategy.rs`)

A shallow embedding of the strategy-selection and array-filling code of the
`column_strategy` module: the Arrow logical-type model, the ODBC source metadata,
the buffer-description model, the error taxonomy, the dispatch function
`choose_column_strategy`, and the boolean / decimal `fill_arrow_array`
implementations, together with theorems settling the specification claims.

Parts of the repository referenced from `column_strategy.rs` but not among the
sources (the `text`, `binary`, `no_conversion`, `with_conversion` and
`date_time` submodules, and the reader-construction buffer allocation) are
modelled from the specification; each such definition carries a doc comment
starting `Modelled from the spec:`.
-/

/-- Arrow `TimeUnit` (from the `arrow` dependency, as used by the source). -/
inductive TimeUnit where
  | Second
  | Millisecond
  | Microsecond
  | Nanosecond
deriving DecidableEq, Repr

/-- Arrow `IntervalUnit` (payload of the `Interval` logical type). -/
inductive IntervalUnit where
  | YearMonth
  | DayTime
  | MonthDayNano
deriving DecidableEq, Repr

mutual

/-- Arrow logical `DataType` as matched by `choose_column_strategy`; the variant
set and payloads follow the `arrow` version used by the source (`Decimal` with
`usize` precision/scale, `FixedSizeBinary` with an `i32` length, nested types
carrying `Field` payloads). -/
inductive ArrowDataType where
  | Null
  | Boolean
  | Int8
  | Int16
  | Int32
  | Int64
  | UInt8
  | UInt16
  | UInt32
  | UInt64
  | Float16
  | Float32
  | Float64
  | Timestamp (unit : TimeUnit) (tz : Option String)
  | Date32
  | Date64
  | Time32 (unit : TimeUnit)
  | Time64 (unit : TimeUnit)
  | Duration (unit : TimeUnit)
  | Interval (unit : IntervalUnit)
  | Binary
  | FixedSizeBinary (length : Int)
  | LargeBinary
  | Utf8
  | LargeUtf8
  | List (field : ArrowField)
  | FixedSizeList (field : ArrowField) (length : Int)
  | LargeList (field : ArrowField)
  | Struct (fields : List ArrowField)
  | Union (fields : List ArrowField)
  | Dictionary (key : ArrowDataType) (value : ArrowDataType)
  | Decimal (precision : Nat) (scale : Nat)
  | Map (field : ArrowField) (sorted : Bool)

/-- Arrow `Field`: a name, a logical data type, and a nullability flag. -/
inductive ArrowField where
  | mk (name : String) (dataType : ArrowDataType) (nullable : Bool)

end

/-- `Field::data_type` accessor. -/
def ArrowField.data_type : ArrowField → ArrowDataType
  | .mk _ t _ => t

/-- `Field::is_nullable` accessor. -/
def ArrowField.is_nullable : ArrowField → Bool
  | .mk _ _ n => n

/-- Modelled from the spec: the ODBC-side native `DataType` of `odbc_api` is not
among the sources; per §3 it is "an opaque tag plus a reported column size",
consumed through its `column_size` accessor. -/
structure OdbcDataType where
  tag : Nat
  columnSize : Nat
deriving DecidableEq, Repr

/-- `OdbcDataType::column_size` accessor (the source calls `sql_type.column_size()`). -/
def OdbcDataType.column_size (t : OdbcDataType) : Nat := t.columnSize

/-- Modelled from the spec: `odbc_api::Error` is an opaque driver-defined error
(§6: "each fallible with a driver-defined error"). -/
structure OdbcError where
  tag : Nat
deriving DecidableEq, Repr

/-- Transit-buffer kind (`odbc_api::buffers::BufferKind` as constrained by the
spec's Buffer Description model, §3: `{Bit, FixedWidth(width), Text(max_len),
Binary(max_len)}`). `Bit` and `Text` appear literally in the source. -/
inductive BufferKind where
  | Bit
  | FixedWidth (width : Nat)
  | Text (max_str_len : Nat)
  | Binary (length : Nat)
deriving DecidableEq, Repr

/-- `odbc_api::buffers::BufferDescription`: nullability plus a buffer kind. -/
structure BufferDescription where
  nullable : Bool
  kind : BufferKind
deriving DecidableEq, Repr

/-- The `ColumnFailure` error enumeration of the source. -/
inductive ColumnFailure where
  | ZeroSizedColumn (sql_type : OdbcDataType)
  | UnknownStringLength (sql_type : OdbcDataType) (source : OdbcError)
  | UnsupportedArrowType (dataType : ArrowDataType)
  | FailedToDescribeColumn (source : OdbcError)
  | TooLarge (num_elements : Nat) (element_size : Nat)

/-- `BufferAllocationOptions` of the source (the field name keeps the source's
spelling `fallibale_allocations`). -/
structure BufferAllocationOptions where
  max_text_size : Option Nat := none
  max_binary_size : Option Nat := none
  fallibale_allocations : Bool := false
deriving DecidableEq, Repr

/-- The width tags of the fixed-width pass-through (`no_conversion`) strategies. -/
inductive PrimType where
  | int8
  | int16
  | int32
  | int64
  | uint8
  | float32
  | float64
deriving DecidableEq, Repr

/-- Closed-variant representation of the concrete strategies the catalog can
return (the source's boxed `dyn ColumnStrategy` values, following the spec's §9
closed tagged-variant reimplementation guidance). Each variant carries exactly
the parameters its source constructor stores. -/
inductive Strat where
  | nonNullableBoolean
  | nullableBoolean
  | noConversion (ty : PrimType) (nullable : Bool)
  | dateConversion (nullable : Bool)
  | timestampConversion (unit : TimeUnit) (nullable : Bool)
  | textStrat (nullable : Bool) (max_str_len : Nat)
  | decimal (nullable : Bool) (precision : Nat) (scale : Nat)
  | binary (nullable : Bool) (length : Nat)
  | fixedSizedBinary (nullable : Bool) (length : Nat)
deriving DecidableEq, Repr

/-- Byte width of a fixed-width pass-through buffer element. -/
def PrimType.width : PrimType → Nat
  | .int8 => 1
  | .int16 => 2
  | .int32 => 4
  | .int64 => 8
  | .uint8 => 1
  | .float32 => 4
  | .float64 => 8

/-- `ColumnStrategy::buffer_description` for each strategy. The boolean and
decimal cases are from the source (`BufferKind::Bit`; `BufferKind::Text` with
`max_str_len = precision + 2`). Modelled from the spec: the descriptions of the
strategies whose modules (`no_conversion`, `with_conversion`, `date_time`,
`text`, `binary`) are not among the sources follow §3's Buffer Description
model (fixed-width numeric, fixed-width text, fixed-width binary). -/
def Strat.buffer_description : Strat → BufferDescription
  | .nonNullableBoolean => ⟨false, .Bit⟩
  | .nullableBoolean => ⟨true, .Bit⟩
  | .noConversion ty n => ⟨n, .FixedWidth ty.width⟩
  | .dateConversion n => ⟨n, .FixedWidth 6⟩
  | .timestampConversion _ n => ⟨n, .FixedWidth 16⟩
  | .textStrat n len => ⟨n, .Text len⟩
  | .decimal n p _ => ⟨n, .Text (p + 2)⟩
  | .binary n len => ⟨n, .Binary len⟩
  | .fixedSizedBinary n len => ⟨n, .Binary len⟩

/-- `Decimal::new`. -/
structure Decimal where
  nullable : Bool
  precision : Nat
  scale : Nat

/-- Modelled from the spec: `choose_text_strategy` from the `text` submodule is
not among the sources. Per §4.1 the text-sizing sub-policy is keyed on the
native type, the display-size accessor, the nullability flag and the text size
ceiling, resolving the element length by the §4.4 resolution table; a failing
display-size accessor becomes `UnknownStringLength` carrying the native type
and the underlying cause (§7). The second component counts invocations of the
display-size accessor. -/
def choose_text_strategy (sql_type : OdbcDataType)
    (lazy_display_size : Except OdbcError Int) (is_nullable : Bool)
    (max_text_size : Option Nat) : Except ColumnFailure Strat × Nat :=
  match lazy_display_size with
  | .error e => (.error (.UnknownStringLength sql_type e), 1)
  | .ok disp =>
    match disp.toNat, max_text_size with
    | 0, none => (.error (.ZeroSizedColumn sql_type), 1)
    | 0, some limit => (.ok (.textStrat is_nullable limit), 1)
    | len, none => (.ok (.textStrat is_nullable len), 1)
    | len, some limit =>
      (.ok (.textStrat is_nullable (if len < limit then len else limit)), 1)

/-- Outcome of one catalog invocation: a strategy, a structured failure, or a
panic (the source's `unwrap` on the `FixedSizeBinary` length conversion). -/
inductive ChooseOutcome where
  | ok (strat : Strat)
  | fail (e : ColumnFailure)
  | panic

/-- Result of `choose_column_strategy` instrumented with how often each lazy
metadata accessor was invoked. -/
structure ChooseResult where
  outcome : ChooseOutcome
  sqlTypeCalls : Nat
  displaySizeCalls : Nat

/-- `choose_column_strategy`: the dispatch over the target field's logical
type. The lazy accessors are embedded as the `Except` values they would
produce; `sqlTypeCalls` and `displaySizeCalls` count how often the source
would have invoked each closure on this control path. The match arms mirror
the source's arms in order. -/
def choose_column_strategy (field : ArrowField)
    (lazy_sql_type : Except OdbcError OdbcDataType)
    (lazy_display_size : Except OdbcError Int)
    (buffer_allocation_options : BufferAllocationOptions) : ChooseResult :=
  match field.data_type with
  | .Boolean =>
    ⟨.ok (if field.is_nullable then .nullableBoolean else .nonNullableBoolean), 0, 0⟩
  | .Int8 => ⟨.ok (.noConversion .int8 field.is_nullable), 0, 0⟩
  | .Int16 => ⟨.ok (.noConversion .int16 field.is_nullable), 0, 0⟩
  | .Int32 => ⟨.ok (.noConversion .int32 field.is_nullable), 0, 0⟩
  | .Int64 => ⟨.ok (.noConversion .int64 field.is_nullable), 0, 0⟩
  | .UInt8 => ⟨.ok (.noConversion .uint8 field.is_nullable), 0, 0⟩
  | .Float32 => ⟨.ok (.noConversion .float32 field.is_nullable), 0, 0⟩
  | .Float64 => ⟨.ok (.noConversion .float64 field.is_nullable), 0, 0⟩
  | .Date32 => ⟨.ok (.dateConversion field.is_nullable), 0, 0⟩
  | .Utf8 =>
    match lazy_sql_type with
    | .error e => ⟨.fail (.FailedToDescribeColumn e), 1, 0⟩
    | .ok sql_type =>
      match choose_text_strategy sql_type lazy_display_size field.is_nullable
          buffer_allocation_options.max_text_size with
      | (.error f, dc) => ⟨.fail f, 1, dc⟩
      | (.ok strat, dc) => ⟨.ok strat, 1, dc⟩
  | .Decimal precision scale =>
    ⟨.ok (.decimal field.is_nullable precision scale), 0, 0⟩
  | .Binary =>
    match lazy_sql_type with
    | .error e => ⟨.fail (.FailedToDescribeColumn e), 1, 0⟩
    | .ok sql_type =>
      match sql_type.column_size, buffer_allocation_options.max_binary_size with
      | 0, none => ⟨.fail (.ZeroSizedColumn sql_type), 1, 0⟩
      | 0, some limit => ⟨.ok (.binary field.is_nullable limit), 1, 0⟩
      | len, none => ⟨.ok (.binary field.is_nullable len), 1, 0⟩
      | len, some limit =>
        ⟨.ok (.binary field.is_nullable (if len < limit then len else limit)), 1, 0⟩
  | .Timestamp .Second _ => ⟨.ok (.timestampConversion .Second field.is_nullable), 0, 0⟩
  | .Timestamp .Millisecond _ =>
    ⟨.ok (.timestampConversion .Millisecond field.is_nullable), 0, 0⟩
  | .Timestamp .Microsecond _ =>
    ⟨.ok (.timestampConversion .Microsecond field.is_nullable), 0, 0⟩
  | .Timestamp .Nanosecond _ =>
    ⟨.ok (.timestampConversion .Nanosecond field.is_nullable), 0, 0⟩
  | .FixedSizeBinary length =>
    if length < 0 then ⟨.panic, 0, 0⟩
    else ⟨.ok (.fixedSizedBinary field.is_nullable length.toNat), 0, 0⟩
  | t => ⟨.fail (.UnsupportedArrowType t), 0, 0⟩

/-! ## Boolean strategies (`NonNullableBoolean`, `NullableBoolean`)

A filled bit-flag column view is a list of bits (`Bit::as_slice`) respectively
a list of optional bits (`Bit::as_nullable_slice`); a `Bit` holds a boolean
(`Bit::as_bool`). The arrow `BooleanBuilder` is modelled at its interface
boundary as a list of optional boolean slots grown by `append_value` /
`append_option`; `finish` returns the accumulated slots. -/

/-- `NonNullableBoolean::fill_arrow_array`: the loop appends `bit.as_bool()`
for every bit of the view, in order, into a fresh builder. -/
def NonNullableBoolean.fill_arrow_array (values : List Bool) : List (Option Bool) :=
  values.foldl (fun builder bit => builder ++ [some bit]) []

/-- `NullableBoolean::fill_arrow_array`: the loop appends
`bit.copied().map(Bit::as_bool)` for every slot of the nullable view. -/
def NullableBoolean.fill_arrow_array (values : List (Option Bool)) :
    List (Option Bool) :=
  values.foldl (fun builder bit => builder ++ [bit]) []

/-! ## Decimal strategy

Bytes are modelled as `Nat` values (`b'.' = 46`, `b'+' = 43`, `b'-' = 45`,
`b'0'..b'9' = 48..57`). A filled text column view is a list of optional byte
strings. -/

/-- The ASCII-digit test of the radix-10 scan: digit byte to its value. -/
def asciiToDigit (c : Nat) : Option Nat :=
  if 48 ≤ c ∧ c ≤ 57 then some (c - 48) else none

/-- Two's-complement wrap of an integer into the signed 128-bit range
`[-2^127, 2^127)`: the semantics of `i128` arithmetic with overflow checks
disabled (with checks enabled an overflowing accumulation aborts instead of
wrapping; either way an overflowing scan does not produce the unbounded
mathematical value). -/
def wrap128 (x : Int) : Int := (x + 2 ^ 127) % 2 ^ 128 - 2 ^ 127

/-- The digit loop of `from_radix_10_signed`: consume ASCII digits from the
front, accumulating `number = number * 10 + sign * digit` in 128-bit
two's-complement arithmetic; stop at the first non-digit byte. Returns the
accumulated value and the number of digit bytes consumed. -/
def scanRadix10 (sign : Int) : List Nat → Int → Int × Nat
  | [], number => (number, 0)
  | c :: rest, number =>
    match asciiToDigit c with
    | some d =>
      let r := scanRadix10 sign rest (wrap128 (number * 10 + sign * d))
      (r.1, r.2 + 1)
    | none => (number, 0)

/-- `i128::from_radix_10_signed` of the `atoi` dependency: an optional leading
`-` or `+` fixes the sign, then a radix-10 scan consumes digits until the first
non-digit byte; returns the parsed value and the count of bytes consumed. The
`i128` accumulator is modelled as `Int` wrapped into the signed 128-bit range
at every accumulation step. -/
def from_radix_10_signed (text : List Nat) : Int × Nat :=
  let signOffset : Int × Nat :=
    match text with
    | c :: _ => if c = 45 then (-1, 1) else if c = 43 then (1, 1) else (1, 0)
    | [] => (1, 0)
  let r := scanRadix10 signOffset.1 (text.drop signOffset.2) 0
  (r.1, signOffset.2 + r.2)

/-- The finished decimal array: per-row optional fixed-point integers, paired
with the strategy's precision and scale (a `DecimalArray` value is an integer
at the array's fixed scale). The arrow `DecimalBuilder` is modelled at its
interface boundary (§6): `append_value` appends a value slot, `append_null`
appends a null slot, `finish` returns the accumulated slots. -/
structure DecimalArray where
  precision : Nat
  scale : Nat
  values : List (Option Int)
deriving DecidableEq, Repr

/-- `Decimal::fill_arrow_array`: for each row of the text view, a null slot
appends null; otherwise `buf_digits` is cleared and refilled with the row's
bytes with every `b'.'` byte filtered out, and the value parsed from it by
`from_radix_10_signed` (the consumed count is discarded) is appended. -/
def Decimal.fill_arrow_array (d : Decimal) (view : List (Option (List Nat))) :
    DecimalArray :=
  let values := view.foldl
    (fun builder opt =>
      match opt with
      | some text =>
        let buf_digits := text.filter (fun c => c ≠ 46)
        builder ++ [some (from_radix_10_signed buf_digits).1]
      | none => builder ++ [none])
    []
  ⟨d.precision, d.scale, values⟩

/-! ## Buffer allocation (reader construction) -/

/-- Outcome of choosing a strategy and allocating its transit buffer: a bound
strategy, a structured failure, a panic, or an aborted process. -/
inductive AllocationOutcome where
  | allocated (strat : Strat)
  | fail (e : ColumnFailure)
  | panic
  | abort

/-- Byte size of one buffer element of the given kind. -/
def BufferKind.element_size : BufferKind → Nat
  | .Bit => 1
  | .FixedWidth w => w
  | .Text n => n
  | .Binary n => n

/-- Modelled from the spec: the reader-construction step that allocates the
transit buffer for a chosen strategy is not among the sources. Per §4.4, when
`fallibale_allocations` is set, a buffer whose computed byte size
(`num_elements * element_size`) exceeds what can be safely allocated
(`max_safe_alloc`) yields `TooLarge { num_elements, element_size }` instead of
aborting the process; without the flag the oversized allocation aborts. -/
def choose_and_allocate (field : ArrowField)
    (lazy_sql_type : Except OdbcError OdbcDataType)
    (lazy_display_size : Except OdbcError Int)
    (buffer_allocation_options : BufferAllocationOptions)
    (num_elements : Nat) (max_safe_alloc : Nat) : AllocationOutcome :=
  match (choose_column_strategy field lazy_sql_type lazy_display_size
      buffer_allocation_options).outcome with
  | .fail e => .fail e
  | .panic => .panic
  | .ok strat =>
    let element_size := strat.buffer_description.kind.element_size
    if num_elements * element_size ≤ max_safe_alloc then .allocated strat
    else if buffer_allocation_options.fallibale_allocations then
      .fail (.TooLarge num_elements element_size)
    else .abort

/-! ## Specification-side characterizations -/

/-- Whether a byte is an ASCII decimal digit. -/
def isDigitByte (c : Nat) : Bool := decide (48 ≤ c ∧ c ≤ 57)

/-- Value of a decimal digit byte sequence read most-significant first. -/
def digitsValue (ds : List Nat) : Nat :=
  ds.foldl (fun n c => n * 10 + (c - 48)) 0

/-- The integer denoted by the longest valid leading signed-digit prefix of a
byte string: an optional leading `-` or `+` followed by the longest run of
ASCII digits; `0` when no digit follows the optional sign. -/
def longestSignedDigitPrefixValue (text : List Nat) : Int :=
  match text with
  | [] => 0
  | c :: rest =>
    if c = 45 then -(digitsValue (rest.takeWhile isDigitByte) : Int)
    else if c = 43 then (digitsValue (rest.takeWhile isDigitByte) : Int)
    else (digitsValue ((c :: rest).takeWhile isDigitByte) : Int)

/-- The digit run the radix-10 scan consumes: the longest leading ASCII-digit
run after the optional sign byte. Its length bounds the magnitude of the
parsed value (`digitsValue run < 10 ^ run.length`), so a run of at most 38
digits is guaranteed to stay inside the signed 128-bit range. -/
def digitRun (text : List Nat) : List Nat :=
  match text with
  | [] => []
  | c :: rest =>
    if c = 45 ∨ c = 43 then rest.takeWhile isDigitByte
    else (c :: rest).takeWhile isDigitByte

/-- The set of logical types the catalog rejects (the explicit closed arm of
the source's match). -/
def isUnsupportedType : ArrowDataType → Bool
  | .Null => true
  | .Boolean => false
  | .Int8 => false
  | .Int16 => false
  | .Int32 => false
  | .Int64 => false
  | .UInt8 => false
  | .UInt16 => true
  | .UInt32 => true
  | .UInt64 => true
  | .Float16 => true
  | .Float32 => false
  | .Float64 => false
  | .Timestamp _ _ => false
  | .Date32 => false
  | .Date64 => true
  | .Time32 _ => true
  | .Time64 _ => true
  | .Duration _ => true
  | .Interval _ => true
  | .Binary => false
  | .FixedSizeBinary _ => false
  | .LargeBinary => true
  | .Utf8 => false
  | .LargeUtf8 => true
  | .List _ => true
  | .FixedSizeList _ _ => true
  | .LargeList _ => true
  | .Struct _ => true
  | .Union _ => true
  | .Dictionary _ _ => true
  | .Decimal _ _ => false
  | .Map _ _ => true

/-- The logical types whose transit-buffer element size is statically known,
so that no source metadata is needed (§3). -/
def staticallySizedType : ArrowDataType → Bool
  | .Boolean => true
  | .Int8 => true
  | .Int16 => true
  | .Int32 => true
  | .Int64 => true
  | .UInt8 => true
  | .Float32 => true
  | .Float64 => true
  | .Date32 => true
  | .Timestamp _ _ => true
  | .Decimal _ _ => true
  | .FixedSizeBinary _ => true
  | _ => false

/-! ## Auxiliary lemmas -/

/-- Appending one mapped element per step is `List.map`. -/
theorem foldl_append_singleton {α β : Type} (h : α → β) (l : List α)
    (acc : List β) :
    l.foldl (fun b x => b ++ [h x]) acc = acc ++ l.map h := by
  induction l generalizing acc with
  | nil => simp
  | cons a l ih => simp [List.foldl_cons, ih, List.append_assoc]

/-- Accumulator lemma for `digitsValue`'s fold. -/
theorem digitsValue_fold (ds : List Nat) (init : Nat) :
    ds.foldl (fun n c => n * 10 + (c - 48)) init =
      init * 10 ^ ds.length + digitsValue ds := by
  induction ds generalizing init with
  | nil => simp [digitsValue]
  | cons c ds ih =>
    have h2 : digitsValue (c :: ds) = (c - 48) * 10 ^ ds.length + digitsValue ds := by
      have h0 : digitsValue (c :: ds) =
          List.foldl (fun n c => n * 10 + (c - 48)) (0 * 10 + (c - 48)) ds := rfl
      rw [h0, ih]
      ring_nf
    simp only [List.foldl_cons, List.length_cons]
    rw [ih (init * 10 + (c - 48)), h2]
    ring

/-- `digitsValue` on a cons. -/
theorem digitsValue_cons (c : Nat) (ds : List Nat) :
    digitsValue (c :: ds) = (c - 48) * 10 ^ ds.length + digitsValue ds := by
  have h0 : digitsValue (c :: ds) =
      List.foldl (fun n c => n * 10 + (c - 48)) (0 * 10 + (c - 48)) ds := rfl
  rw [h0, digitsValue_fold]
  ring_nf

/-- The wrap is the identity on values already inside the signed 128-bit
range. -/
theorem wrap128_eq_self (x : Int) (h1 : -(2 ^ 127) ≤ x) (h2 : x < 2 ^ 127) :
    wrap128 x = x := by
  have hp : (2 : Int) ^ 128 = 2 ^ 127 * 2 := by ring
  have h3 : (0 : Int) ≤ x + 2 ^ 127 := by linarith
  have h4 : x + 2 ^ 127 < 2 ^ 128 := by rw [hp]; linarith
  unfold wrap128
  rw [Int.emod_eq_of_lt h3 h4]
  ring

/-- The value of a digit run is bounded by ten to its length. -/
theorem digitsValue_takeWhile_lt (l : List Nat) :
    digitsValue (l.takeWhile isDigitByte) <
      10 ^ (l.takeWhile isDigitByte).length := by
  induction l with
  | nil => simp [digitsValue]
  | cons c rest ih =>
    by_cases hc : isDigitByte c = true
    · have hc2 : 48 ≤ c ∧ c ≤ 57 := by simpa [isDigitByte] using hc
      have h9 : c - 48 ≤ 9 := by omega
      rw [List.takeWhile_cons, if_pos hc, digitsValue_cons, List.length_cons,
        pow_succ]
      have hmul : (c - 48) * 10 ^ (rest.takeWhile isDigitByte).length ≤
          9 * 10 ^ (rest.takeWhile isDigitByte).length :=
        Nat.mul_le_mul_right _ h9
      linarith
    · have hcf : isDigitByte c = false := by simpa using hc
      simp [List.takeWhile_cons, hcf, digitsValue]

/-- The digit loop consumes exactly the longest ASCII-digit run and, as long
as every intermediate accumulator value stays inside the signed 128-bit range
(guaranteed by the stated magnitude bound), accumulates exactly the run's
value at the given sign. -/
theorem scanRadix10_eq (sign : Int) (hs : sign = 1 ∨ sign = -1) :
    ∀ (l : List Nat) (n : Int),
      |n| * 10 ^ (l.takeWhile isDigitByte).length +
        (digitsValue (l.takeWhile isDigitByte) : Int) < 2 ^ 127 →
      scanRadix10 sign l n =
        (n * 10 ^ (l.takeWhile isDigitByte).length +
          sign * (digitsValue (l.takeWhile isDigitByte) : Int),
         (l.takeWhile isDigitByte).length) := by
  intro l
  induction l with
  | nil =>
    intro n hb
    simp [scanRadix10, digitsValue]
  | cons c rest ih =>
    intro n hb
    by_cases hc : isDigitByte c = true
    · have hc2 : 48 ≤ c ∧ c ≤ 57 := by simpa [isDigitByte] using hc
      have hdig : asciiToDigit c = some (c - 48) := by
        simp [asciiToDigit, hc2.1, hc2.2]
      have htw : (c :: rest).takeWhile isDigitByte =
          c :: rest.takeWhile isDigitByte := by
        simp [List.takeWhile_cons, hc]
      rw [htw, List.length_cons, digitsValue_cons] at hb ⊢
      push_cast at hb ⊢
      have hd0 : (0 : Int) ≤ ((c - 48 : Nat) : Int) := Int.natCast_nonneg _
      have hd9 : ((c - 48 : Nat) : Int) ≤ 9 := by
        have : c - 48 ≤ 9 := by omega
        exact_mod_cast this
      have hval0 : (0 : Int) ≤
          (digitsValue (rest.takeWhile isDigitByte) : Int) :=
        Int.natCast_nonneg _
      have h10k : (1 : Int) ≤ 10 ^ (rest.takeWhile isDigitByte).length := by
        have := pow_pos (show (0 : Int) < 10 by norm_num)
          (rest.takeWhile isDigitByte).length
        linarith
      have habs_sign : |sign| = 1 := by rcases hs with rfl | rfl <;> norm_num
      have hx_le : |n * 10 + sign * ((c - 48 : Nat) : Int)| ≤
          |n| * 10 + ((c - 48 : Nat) : Int) := by
        calc |n * 10 + sign * ((c - 48 : Nat) : Int)|
            ≤ |n * 10| + |sign * ((c - 48 : Nat) : Int)| := abs_add _ _
          _ = |n| * 10 + ((c - 48 : Nat) : Int) := by
            rw [abs_mul, abs_mul, habs_sign, abs_of_nonneg hd0]
            norm_num
      have hkey : |n| * 10 + ((c - 48 : Nat) : Int) ≤
          |n| * 10 ^ ((rest.takeWhile isDigitByte).length + 1) +
            (((c - 48 : Nat) : Int) *
                10 ^ (rest.takeWhile isDigitByte).length +
              (digitsValue (rest.takeWhile isDigitByte) : Int)) := by
        have h1 : |n| * 10 ≤
            |n| * 10 ^ ((rest.takeWhile isDigitByte).length + 1) := by
          apply mul_le_mul_of_nonneg_left ?_ (abs_nonneg n)
          calc (10 : Int) = 10 ^ 1 := (pow_one 10).symm
            _ ≤ 10 ^ ((rest.takeWhile isDigitByte).length + 1) :=
              pow_le_pow_right (by norm_num) (by omega)
        have h2 : ((c - 48 : Nat) : Int) ≤
            ((c - 48 : Nat) : Int) *
              10 ^ (rest.takeWhile isDigitByte).length :=
          le_mul_of_one_le_right hd0 h10k
        linarith
      have hx_lt : |n * 10 + sign * ((c - 48 : Nat) : Int)| < 2 ^ 127 := by
        linarith
      have hx_range := abs_lt.mp hx_lt
      have hwrap : wrap128 (n * 10 + sign * ((c - 48 : Nat) : Int)) =
          n * 10 + sign * ((c - 48 : Nat) : Int) :=
        wrap128_eq_self _ (le_of_lt hx_range.1) hx_range.2
      have hb2 : |n * 10 + sign * ((c - 48 : Nat) : Int)| *
            10 ^ (rest.takeWhile isDigitByte).length +
          (digitsValue (rest.takeWhile isDigitByte) : Int) < 2 ^ 127 := by
        have hmono : |n * 10 + sign * ((c - 48 : Nat) : Int)| *
              10 ^ (rest.takeWhile isDigitByte).length ≤
            (|n| * 10 + ((c - 48 : Nat) : Int)) *
              10 ^ (rest.takeWhile isDigitByte).length :=
          mul_le_mul_of_nonneg_right hx_le
            (le_of_lt (pow_pos (by norm_num) _))
        have hexp : (|n| * 10 + ((c - 48 : Nat) : Int)) *
              10 ^ (rest.takeWhile isDigitByte).length =
            |n| * 10 ^ ((rest.takeWhile isDigitByte).length + 1) +
              ((c - 48 : Nat) : Int) *
                10 ^ (rest.takeWhile isDigitByte).length := by ring
        linarith
      simp only [scanRadix10, hdig, hwrap]
      rw [ih _ hb2]
      dsimp only
      simp only [Prod.mk.injEq]
      refine ⟨?_, trivial⟩
      ring
    · have hcf : isDigitByte c = false := by
        simpa using hc
      have hcf2 : ¬(48 ≤ c ∧ c ≤ 57) := by
        simpa [isDigitByte] using hcf
      have hdig : asciiToDigit c = none := by
        simp [asciiToDigit, hcf2]
      simp [scanRadix10, hdig, List.takeWhile_cons, hcf, digitsValue]

/-- The digit run's value stays below `2^127` whenever the run is at most 38
digits long. -/
theorem digitRun_value_lt (l : List Nat)
    (hlen : (l.takeWhile isDigitByte).length ≤ 38) :
    (digitsValue (l.takeWhile isDigitByte) : Int) < 2 ^ 127 := by
  have h1 := digitsValue_takeWhile_lt l
  have h2 : (10 : Nat) ^ (l.takeWhile isDigitByte).length ≤ 10 ^ 38 :=
    Nat.pow_le_pow_right (by norm_num) hlen
  have h3 : digitsValue (l.takeWhile isDigitByte) < 10 ^ 38 :=
    lt_of_lt_of_le h1 h2
  calc (digitsValue (l.takeWhile isDigitByte) : Int) < (10 : Int) ^ 38 := by
        exact_mod_cast h3
    _ < 2 ^ 127 := by norm_num

/-- When the consumed digit run fits in 38 digits (hence inside the signed
128-bit range), the value parsed by `from_radix_10_signed` is exactly the
value of the longest valid leading signed-digit prefix. -/
theorem from_radix_10_signed_eq (text : List Nat)
    (hlen : (digitRun text).length ≤ 38) :
    (from_radix_10_signed text).1 = longestSignedDigitPrefixValue text := by
  cases text with
  | nil => rfl
  | cons c rest =>
    by_cases h45 : c = 45
    · subst h45
      have hrun : digitRun (45 :: rest) = rest.takeWhile isDigitByte := by
        simp [digitRun]
      rw [hrun] at hlen
      have hscan := scanRadix10_eq (-1) (Or.inr rfl) rest 0
        (by simpa using digitRun_value_lt rest hlen)
      simp [from_radix_10_signed, longestSignedDigitPrefixValue, hscan]
    · by_cases h43 : c = 43
      · subst h43
        have hrun : digitRun (43 :: rest) = rest.takeWhile isDigitByte := by
          simp [digitRun]
        rw [hrun] at hlen
        have hscan := scanRadix10_eq 1 (Or.inl rfl) rest 0
          (by simpa using digitRun_value_lt rest hlen)
        simp [from_radix_10_signed, longestSignedDigitPrefixValue, hscan]
      · have hrun : digitRun (c :: rest) =
            (c :: rest).takeWhile isDigitByte := by
          simp [digitRun, h45, h43]
        rw [hrun] at hlen
        have hscan := scanRadix10_eq 1 (Or.inl rfl) (c :: rest) 0
          (by simpa using digitRun_value_lt (c :: rest) hlen)
        simp [from_radix_10_signed, longestSignedDigitPrefixValue, hscan,
          h45, h43]

/-- The non-nullable boolean fill loop produces exactly the input bits. -/
theorem nonNullableBoolean_fill_eq (values : List Bool) :
    NonNullableBoolean.fill_arrow_array values = values.map some := by
  simpa [NonNullableBoolean.fill_arrow_array] using
    foldl_append_singleton some values []

/-- The nullable boolean fill loop produces exactly the input slots. -/
theorem nullableBoolean_fill_eq (values : List (Option Bool)) :
    NullableBoolean.fill_arrow_array values = values := by
  simpa [NullableBoolean.fill_arrow_array] using
    foldl_append_singleton (fun (x : Option Bool) => x) values []

/-- The decimal fill loop maps each slot through dot-stripping and the
radix-10 signed parse, preserving nulls and order. -/
theorem fill_values_eq (d : Decimal) (view : List (Option (List Nat))) :
    (d.fill_arrow_array view).values =
      view.map (Option.map
        (fun t => (from_radix_10_signed (t.filter (fun c => c ≠ 46))).1)) := by
  have h0 : (d.fill_arrow_array view).values = view.foldl
      (fun builder opt =>
        match opt with
        | some text =>
          let buf_digits := text.filter (fun c => c ≠ 46)
          builder ++ [some (from_radix_10_signed buf_digits).1]
        | none => builder ++ [none])
      [] := rfl
  have hstep : (fun (builder : List (Option Int)) (opt : Option (List Nat)) =>
      match opt with
      | some text =>
        let buf_digits := text.filter (fun c => c ≠ 46)
        builder ++ [some (from_radix_10_signed buf_digits).1]
      | none => builder ++ [none]) =
      (fun builder opt => builder ++
        [Option.map (fun t => (from_radix_10_signed (t.filter (fun c => c ≠ 46))).1) opt]) := by
    funext b o
    cases o <;> rfl
  rw [h0, hstep, foldl_append_singleton]
  simp

/-! ## Claims -/

/-- Discharge an impossible boolean hypothesis. -/
theorem bool_false_absurd {C : Prop} (h : (false : Bool) = true) : C :=
  absurd h (by decide)

/-- A guarded selection between two naturals is their minimum. -/
theorem if_lt_eq_min (a b : Nat) : (if a < b then a else b) = min a b := by
  rcases Nat.lt_or_ge a b with h | h
  · rw [if_pos h, Nat.min_eq_left h.le]
  · rw [if_neg (Nat.not_lt.mpr h), Nat.min_eq_right h]

/-- The text-sizing sub-policy invokes the display-size accessor exactly once. -/
theorem choose_text_strategy_snd (sql_type : OdbcDataType)
    (lazy_display_size : Except OdbcError Int) (is_nullable : Bool)
    (max_text_size : Option Nat) :
    (choose_text_strategy sql_type lazy_display_size is_nullable max_text_size).2 = 1 := by
  cases lazy_display_size with
  | error e => rfl
  | ok disp =>
    unfold choose_text_strategy
    cases h : disp.toNat <;> cases max_text_size <;> simp [h]

/-- C1: For every `Binary` target field and every nullability flag, the
transit-buffer element length is resolved from the source-reported column
size and the optional `max_binary_size` ceiling by the four-quadrant table:
`(0, None)` is the `ZeroSizedColumn` failure carrying the native type,
`(0, Some c)` uses `c`, `(len>0, None)` uses `len`, `(len>0, Some c)` uses
`min len c`. -/
theorem claim_c1_binary_sizing (name : String) (nullable : Bool)
    (st : OdbcDataType) (lazy_display_size : Except OdbcError Int)
    (opts : BufferAllocationOptions) :
    (st.column_size = 0 → opts.max_binary_size = none →
      choose_column_strategy ⟨name, .Binary, nullable⟩ (.ok st)
          lazy_display_size opts = ⟨.fail (.ZeroSizedColumn st), 1, 0⟩) ∧
    (∀ limit, st.column_size = 0 → opts.max_binary_size = some limit →
      (choose_column_strategy ⟨name, .Binary, nullable⟩ (.ok st)
          lazy_display_size opts).outcome = .ok (.binary nullable limit)) ∧
    (st.column_size ≠ 0 → opts.max_binary_size = none →
      (choose_column_strategy ⟨name, .Binary, nullable⟩ (.ok st)
          lazy_display_size opts).outcome = .ok (.binary nullable st.column_size)) ∧
    (∀ limit, st.column_size ≠ 0 → opts.max_binary_size = some limit →
      (choose_column_strategy ⟨name, .Binary, nullable⟩ (.ok st)
          lazy_display_size opts).outcome =
        .ok (.binary nullable (min st.column_size limit))) ∧
    (∀ (n : Bool) (len : Nat),
      (Strat.binary n len).buffer_description = ⟨n, .Binary len⟩) := by
  obtain ⟨tag, cs⟩ := st
  obtain ⟨mts, mbs, fa⟩ := opts
  refine ⟨?_, ?_, ?_, ?_, fun n len => rfl⟩
  · intro h0 hn
    have hcs : cs = 0 := h0
    subst hcs
    subst hn
    rfl
  · intro limit h0 hs
    have hcs : cs = 0 := h0
    subst hcs
    subst hs
    rfl
  · intro h0 hn
    subst hn
    cases cs with
    | zero => exact absurd rfl h0
    | succ k => rfl
  · intro limit h0 hs
    subst hs
    cases cs with
    | zero => exact absurd rfl h0
    | succ k =>
      have h1 : (choose_column_strategy ⟨name, .Binary, nullable⟩
          (.ok ⟨tag, k + 1⟩) lazy_display_size ⟨mts, some limit, fa⟩).outcome =
          .ok (.binary nullable (if k + 1 < limit then k + 1 else limit)) := rfl
      rw [h1, if_lt_eq_min]
      rfl

/-- Witness for C1: reported column size 0 with ceiling `Some 50` resolves to
element length 50. -/
theorem claim_c1_witness :
    (choose_column_strategy ⟨"b", .Binary, true⟩ (.ok ⟨7, 0⟩) (.ok 0)
        ⟨none, some 50, false⟩).outcome = .ok (.binary true 50) :=
  (claim_c1_binary_sizing "b" true ⟨7, 0⟩ (.ok 0) ⟨none, some 50, false⟩).2.1
    50 rfl rfl

/-- C3: For every `Decimal(precision, scale)` target field, the catalog always
returns the decimal strategy, its buffer description is a text buffer with
`max_str_len = precision + 2` and the field's nullability, and neither
metadata accessor is invoked. -/
theorem claim_c3_decimal_strategy (name : String) (nullable : Bool)
    (precision scale : Nat) (lazy_sql_type : Except OdbcError OdbcDataType)
    (lazy_display_size : Except OdbcError Int) (opts : BufferAllocationOptions) :
    choose_column_strategy ⟨name, .Decimal precision scale, nullable⟩
        lazy_sql_type lazy_display_size opts =
      ⟨.ok (.decimal nullable precision scale), 0, 0⟩ ∧
    (Strat.decimal nullable precision scale).buffer_description =
      ⟨nullable, .Text (precision + 2)⟩ :=
  ⟨rfl, rfl⟩

/-- C4: Every logical type outside the supported enumeration produces the
`UnsupportedArrowType` failure carrying that exact type, with no panic, no
fallback strategy, and no accessor invocation. -/
theorem claim_c4_unsupported (name : String) (nullable : Bool)
    (t : ArrowDataType) (lazy_sql_type : Except OdbcError OdbcDataType)
    (lazy_display_size : Except OdbcError Int) (opts : BufferAllocationOptions)
    (h : isUnsupportedType t = true) :
    choose_column_strategy ⟨name, t, nullable⟩ lazy_sql_type
        lazy_display_size opts =
      ⟨.fail (.UnsupportedArrowType t), 0, 0⟩ := by
  cases t <;> first
    | rfl
    | exact absurd h (by simp [isUnsupportedType])

/-- Witness for C4 at the `Null` logical type. -/
theorem claim_c4_witness :
    isUnsupportedType .Null = true ∧
    choose_column_strategy ⟨"a", .Null, true⟩ (.ok ⟨0, 0⟩) (.ok 0)
        ⟨none, none, false⟩ =
      ⟨.fail (.UnsupportedArrowType .Null), 0, 0⟩ :=
  ⟨rfl, claim_c4_unsupported "a" true .Null (.ok ⟨0, 0⟩) (.ok 0)
    ⟨none, none, false⟩ rfl⟩

/-- C7: For every `Utf8` or `Binary` target field, a failing native-type
accessor makes the catalog return `FailedToDescribeColumn` wrapping the
underlying error, and no strategy is produced. -/
theorem claim_c7_describe_failure (name : String) (nullable : Bool)
    (t : ArrowDataType) (e : OdbcError)
    (lazy_display_size : Except OdbcError Int) (opts : BufferAllocationOptions)
    (h : t = .Utf8 ∨ t = .Binary) :
    choose_column_strategy ⟨name, t, nullable⟩ (.error e)
        lazy_display_size opts =
      ⟨.fail (.FailedToDescribeColumn e), 1, 0⟩ := by
  rcases h with rfl | rfl <;> rfl

/-- Witness for C7 at a `Utf8` field with a failing native-type accessor. -/
theorem claim_c7_witness :
    choose_column_strategy ⟨"a", .Utf8, false⟩ (.error ⟨3⟩) (.ok 0)
        ⟨none, none, false⟩ =
      ⟨.fail (.FailedToDescribeColumn ⟨3⟩), 1, 0⟩ :=
  claim_c7_describe_failure "a" false .Utf8 ⟨3⟩ (.ok 0) ⟨none, none, false⟩
    (Or.inl rfl)

/-- C10: For every `FixedSizeBinary(length)` target field, a negative declared
length makes the catalog panic (the unwrapped length conversion), never
returning a `ColumnFailure`; a non-negative length returns the fixed-size
binary strategy with exactly that length, with no accessor invocation. -/
theorem claim_c10_fixed_size_binary (name : String) (nullable : Bool)
    (length : Int) (lazy_sql_type : Except OdbcError OdbcDataType)
    (lazy_display_size : Except OdbcError Int) (opts : BufferAllocationOptions) :
    (length < 0 →
      choose_column_strategy ⟨name, .FixedSizeBinary length, nullable⟩
          lazy_sql_type lazy_display_size opts = ⟨.panic, 0, 0⟩) ∧
    (0 ≤ length →
      choose_column_strategy ⟨name, .FixedSizeBinary length, nullable⟩
          lazy_sql_type lazy_display_size opts =
        ⟨.ok (.fixedSizedBinary nullable length.toNat), 0, 0⟩) := by
  have h0 : choose_column_strategy ⟨name, .FixedSizeBinary length, nullable⟩
      lazy_sql_type lazy_display_size opts =
      if length < 0 then ⟨.panic, 0, 0⟩
      else ⟨.ok (.fixedSizedBinary nullable length.toNat), 0, 0⟩ := rfl
  constructor
  · intro h
    rw [h0, if_pos h]
  · intro h
    rw [h0, if_neg (not_lt.mpr h)]

/-- C5: During one catalog invocation the native-type and display-size
accessors are each invoked at most once; neither accessor is invoked when the
target logical type's size is statically known; and the native-type accessor
is invoked only for `Utf8` and `Binary` targets. -/
theorem claim_c5_accessors (field : ArrowField)
    (lazy_sql_type : Except OdbcError OdbcDataType)
    (lazy_display_size : Except OdbcError Int) (opts : BufferAllocationOptions) :
    (choose_column_strategy field lazy_sql_type lazy_display_size
        opts).sqlTypeCalls ≤ 1 ∧
    (choose_column_strategy field lazy_sql_type lazy_display_size
        opts).displaySizeCalls ≤ 1 ∧
    (staticallySizedType field.data_type = true →
      (choose_column_strategy field lazy_sql_type lazy_display_size
          opts).sqlTypeCalls = 0 ∧
      (choose_column_strategy field lazy_sql_type lazy_display_size
          opts).displaySizeCalls = 0) ∧
    ((choose_column_strategy field lazy_sql_type lazy_display_size
        opts).sqlTypeCalls ≠ 0 →
      field.data_type = .Utf8 ∨ field.data_type = .Binary) := by
  obtain ⟨name, t, nb⟩ := field
  cases t with
  | Timestamp u tz =>
    cases u <;>
      exact ⟨Nat.zero_le 1, Nat.zero_le 1, fun _ => ⟨rfl, rfl⟩,
        fun h => absurd rfl h⟩
  | FixedSizeBinary len =>
    have h0 : choose_column_strategy ⟨name, .FixedSizeBinary len, nb⟩
        lazy_sql_type lazy_display_size opts =
        if len < 0 then ⟨.panic, 0, 0⟩
        else ⟨.ok (.fixedSizedBinary nb len.toNat), 0, 0⟩ := rfl
    rw [h0]
    by_cases hl : len < 0
    · rw [if_pos hl]
      exact ⟨Nat.zero_le 1, Nat.zero_le 1, fun _ => ⟨rfl, rfl⟩,
        fun h => absurd rfl h⟩
    · rw [if_neg hl]
      exact ⟨Nat.zero_le 1, Nat.zero_le 1, fun _ => ⟨rfl, rfl⟩,
        fun h => absurd rfl h⟩
  | Utf8 =>
    cases lazy_sql_type with
    | error e =>
      exact ⟨Nat.le_refl 1, Nat.zero_le 1, fun h => bool_false_absurd h,
        fun _ => Or.inl rfl⟩
    | ok st =>
      have h0 : choose_column_strategy ⟨name, .Utf8, nb⟩ (.ok st)
          lazy_display_size opts =
          (match choose_text_strategy st lazy_display_size nb
              opts.max_text_size with
            | (.error f, dc) => ⟨.fail f, 1, dc⟩
            | (.ok strat, dc) => ⟨.ok strat, 1, dc⟩) := rfl
      rw [h0]
      have h1 := choose_text_strategy_snd st lazy_display_size nb
        opts.max_text_size
      cases hts : choose_text_strategy st lazy_display_size nb
          opts.max_text_size with
      | mk r dc =>
        rw [hts] at h1
        simp only at h1
        subst h1
        cases r <;>
          exact ⟨Nat.le_refl 1, Nat.le_refl 1, fun h => bool_false_absurd h,
            fun _ => Or.inl rfl⟩
  | Binary =>
    cases lazy_sql_type with
    | error e =>
      exact ⟨Nat.le_refl 1, Nat.zero_le 1, fun h => bool_false_absurd h,
        fun _ => Or.inr rfl⟩
    | ok st =>
      obtain ⟨tag, cs⟩ := st
      obtain ⟨mts, mbs, fa⟩ := opts
      cases cs <;> cases mbs <;>
        exact ⟨Nat.le_refl 1, Nat.zero_le 1, fun h => bool_false_absurd h,
          fun _ => Or.inr rfl⟩
  | Boolean =>
    exact ⟨Nat.zero_le 1, Nat.zero_le 1, fun _ => ⟨rfl, rfl⟩,
      fun h => absurd rfl h⟩
  | Int8 =>
    exact ⟨Nat.zero_le 1, Nat.zero_le 1, fun _ => ⟨rfl, rfl⟩,
      fun h => absurd rfl h⟩
  | Int16 =>
    exact ⟨Nat.zero_le 1, Nat.zero_le 1, fun _ => ⟨rfl, rfl⟩,
      fun h => absurd rfl h⟩
  | Int32 =>
    exact ⟨Nat.zero_le 1, Nat.zero_le 1, fun _ => ⟨rfl, rfl⟩,
      fun h => absurd rfl h⟩
  | Int64 =>
    exact ⟨Nat.zero_le 1, Nat.zero_le 1, fun _ => ⟨rfl, rfl⟩,
      fun h => absurd rfl h⟩
  | UInt8 =>
    exact ⟨Nat.zero_le 1, Nat.zero_le 1, fun _ => ⟨rfl, rfl⟩,
      fun h => absurd rfl h⟩
  | Float32 =>
    exact ⟨Nat.zero_le 1, Nat.zero_le 1, fun _ => ⟨rfl, rfl⟩,
      fun h => absurd rfl h⟩
  | Float64 =>
    exact ⟨Nat.zero_le 1, Nat.zero_le 1, fun _ => ⟨rfl, rfl⟩,
      fun h => absurd rfl h⟩
  | Date32 =>
    exact ⟨Nat.zero_le 1, Nat.zero_le 1, fun _ => ⟨rfl, rfl⟩,
      fun h => absurd rfl h⟩
  | Decimal p s =>
    exact ⟨Nat.zero_le 1, Nat.zero_le 1, fun _ => ⟨rfl, rfl⟩,
      fun h => absurd rfl h⟩
  | Null =>
    exact ⟨Nat.zero_le 1, Nat.zero_le 1, fun h => bool_false_absurd h,
      fun h => absurd rfl h⟩
  | UInt16 =>
    exact ⟨Nat.zero_le 1, Nat.zero_le 1, fun h => bool_false_absurd h,
      fun h => absurd rfl h⟩
  | UInt32 =>
    exact ⟨Nat.zero_le 1, Nat.zero_le 1, fun h => bool_false_absurd h,
      fun h => absurd rfl h⟩
  | UInt64 =>
    exact ⟨Nat.zero_le 1, Nat.zero_le 1, fun h => bool_false_absurd h,
      fun h => absurd rfl h⟩
  | Float16 =>
    exact ⟨Nat.zero_le 1, Nat.zero_le 1, fun h => bool_false_absurd h,
      fun h => absurd rfl h⟩
  | Date64 =>
    exact ⟨Nat.zero_le 1, Nat.zero_le 1, fun h => bool_false_absurd h,
      fun h => absurd rfl h⟩
  | Time32 u =>
    exact ⟨Nat.zero_le 1, Nat.zero_le 1, fun h => bool_false_absurd h,
      fun h => absurd rfl h⟩
  | Time64 u =>
    exact ⟨Nat.zero_le 1, Nat.zero_le 1, fun h => bool_false_absurd h,
      fun h => absurd rfl h⟩
  | Duration u =>
    exact ⟨Nat.zero_le 1, Nat.zero_le 1, fun h => bool_false_absurd h,
      fun h => absurd rfl h⟩
  | Interval u =>
    exact ⟨Nat.zero_le 1, Nat.zero_le 1, fun h => bool_false_absurd h,
      fun h => absurd rfl h⟩
  | LargeBinary =>
    exact ⟨Nat.zero_le 1, Nat.zero_le 1, fun h => bool_false_absurd h,
      fun h => absurd rfl h⟩
  | LargeUtf8 =>
    exact ⟨Nat.zero_le 1, Nat.zero_le 1, fun h => bool_false_absurd h,
      fun h => absurd rfl h⟩
  | List f =>
    exact ⟨Nat.zero_le 1, Nat.zero_le 1, fun h => bool_false_absurd h,
      fun h => absurd rfl h⟩
  | FixedSizeList f l =>
    exact ⟨Nat.zero_le 1, Nat.zero_le 1, fun h => bool_false_absurd h,
      fun h => absurd rfl h⟩
  | LargeList f =>
    exact ⟨Nat.zero_le 1, Nat.zero_le 1, fun h => bool_false_absurd h,
      fun h => absurd rfl h⟩
  | Struct fs =>
    exact ⟨Nat.zero_le 1, Nat.zero_le 1, fun h => bool_false_absurd h,
      fun h => absurd rfl h⟩
  | Union fs =>
    exact ⟨Nat.zero_le 1, Nat.zero_le 1, fun h => bool_false_absurd h,
      fun h => absurd rfl h⟩
  | Dictionary k v =>
    exact ⟨Nat.zero_le 1, Nat.zero_le 1, fun h => bool_false_absurd h,
      fun h => absurd rfl h⟩
  | Map f s =>
    exact ⟨Nat.zero_le 1, Nat.zero_le 1, fun h => bool_false_absurd h,
      fun h => absurd rfl h⟩

/-- Witness for C5 at an `Int32` field: the statically-known-size implication
is discharged, giving zero invocations of both accessors. -/
theorem claim_c5_witness :
    (choose_column_strategy ⟨"a", .Int32, true⟩ (.error ⟨1⟩) (.error ⟨2⟩)
        ⟨none, none, false⟩).sqlTypeCalls = 0 ∧
    (choose_column_strategy ⟨"a", .Int32, true⟩ (.error ⟨1⟩) (.error ⟨2⟩)
        ⟨none, none, false⟩).displaySizeCalls = 0 :=
  (claim_c5_accessors ⟨"a", .Int32, true⟩ (.error ⟨1⟩) (.error ⟨2⟩)
    ⟨none, none, false⟩).2.2.1 rfl

/-- C6: With `fallibale_allocations` set, a chosen strategy whose computed
transit-buffer byte size exceeds the safe allocation bound yields the
`TooLarge` failure carrying the element count and element size, instead of
aborting the process. -/
theorem claim_c6_too_large (field : ArrowField)
    (lazy_sql_type : Except OdbcError OdbcDataType)
    (lazy_display_size : Except OdbcError Int) (opts : BufferAllocationOptions)
    (num_elements max_safe_alloc : Nat) (strat : Strat)
    (hf : opts.fallibale_allocations = true)
    (hok : (choose_column_strategy field lazy_sql_type lazy_display_size
        opts).outcome = .ok strat)
    (hbig : max_safe_alloc <
      num_elements * strat.buffer_description.kind.element_size) :
    choose_and_allocate field lazy_sql_type lazy_display_size opts
        num_elements max_safe_alloc =
      .fail (.TooLarge num_elements
        strat.buffer_description.kind.element_size) := by
  unfold choose_and_allocate
  rw [hok]
  dsimp only
  rw [if_neg (not_le.mpr hbig), if_pos hf]

/-- Witness for C6: a boolean column of 10 elements against a safe bound of 5
bytes with fallible allocations yields `TooLarge 10 1`. -/
theorem claim_c6_witness :
    choose_and_allocate ⟨"a", .Boolean, false⟩ (.ok ⟨0, 0⟩) (.ok 0)
        ⟨none, none, true⟩ 10 5 = .fail (.TooLarge 10 1) :=
  claim_c6_too_large ⟨"a", .Boolean, false⟩ (.ok ⟨0, 0⟩) (.ok 0)
    ⟨none, none, true⟩ 10 5 .nonNullableBoolean rfl rfl (by decide)

/-- Witness for C10 at lengths `-1` (panic) and `5` (strategy of length 5). -/
theorem claim_c10_witness :
    choose_column_strategy ⟨"a", .FixedSizeBinary (-1), true⟩ (.ok ⟨0, 0⟩)
        (.ok 0) ⟨none, none, false⟩ = ⟨.panic, 0, 0⟩ ∧
    choose_column_strategy ⟨"a", .FixedSizeBinary 5, false⟩ (.ok ⟨0, 0⟩)
        (.ok 0) ⟨none, none, false⟩ =
      ⟨.ok (.fixedSizedBinary false 5), 0, 0⟩ :=
  ⟨(claim_c10_fixed_size_binary "a" true (-1) (.ok ⟨0, 0⟩) (.ok 0)
      ⟨none, none, false⟩).1 (by decide),
   (claim_c10_fixed_size_binary "a" false 5 (.ok ⟨0, 0⟩) (.ok 0)
      ⟨none, none, false⟩).2 (by decide)⟩

/-- C2: For every row of a decimal column, a null input slot produces a null
output slot, and a non-null input text produces the fixed-point value obtained
by removing every `.` byte and parsing the remainder as a signed base-10
128-bit integer with optional leading `-` or `+`, at the strategy's fixed
scale; whenever the consumed digit run fits in 38 digits (hence inside the
signed 128-bit range) that parse yields exactly the prefix's integer value. In
particular `"123.45"` with precision 5, scale 2 yields 12345 at scale 2, and
`"-0.5"` with scale 1 yields -5 at scale 1. -/
theorem claim_c2_decimal_fill (d : Decimal) (view : List (Option (List Nat))) :
    ((d.fill_arrow_array view).scale = d.scale ∧
      (d.fill_arrow_array view).values =
        view.map (Option.map
          (fun t => (from_radix_10_signed (t.filter (fun c => c ≠ 46))).1)) ∧
      ∀ t : List Nat, (digitRun (t.filter (fun c => c ≠ 46))).length ≤ 38 →
        (from_radix_10_signed (t.filter (fun c => c ≠ 46))).1 =
          longestSignedDigitPrefixValue (t.filter (fun c => c ≠ 46))) ∧
    Decimal.fill_arrow_array ⟨true, 5, 2⟩ [some [49, 50, 51, 46, 52, 53]] =
      ⟨5, 2, [some 12345]⟩ ∧
    Decimal.fill_arrow_array ⟨true, 2, 1⟩ [some [45, 48, 46, 53]] =
      ⟨2, 1, [some (-5)]⟩ ∧
    Decimal.fill_arrow_array d [none] = ⟨d.precision, d.scale, [none]⟩ := by
  refine ⟨⟨rfl, fill_values_eq d view,
    fun t ht => from_radix_10_signed_eq _ ht⟩, by decide, by decide, by rfl⟩

/-- Witness for C2 at the text `"123.45"`: its digit run fits in 38 digits,
so the 128-bit parse equals the prefix's integer value. -/
theorem claim_c2_witness :
    (from_radix_10_signed
        ([49, 50, 51, 46, 52, 53].filter (fun c => c ≠ 46))).1 =
      longestSignedDigitPrefixValue
        ([49, 50, 51, 46, 52, 53].filter (fun c => c ≠ 46)) :=
  (claim_c2_decimal_fill ⟨true, 5, 2⟩ []).1.2.2 [49, 50, 51, 46, 52, 53]
    (by decide)

/-- C8: The non-nullable boolean strategy's fill outputs, in order, exactly
the boolean value of each input bit (fill→read round-trips with no bit
flips); the nullable boolean strategy outputs a null slot for every unset
position and the boolean value for every set position, preserving order. -/
theorem claim_c8_boolean_roundtrip :
    (∀ values : List Bool,
      NonNullableBoolean.fill_arrow_array values = values.map some) ∧
    (∀ values : List (Option Bool),
      NullableBoolean.fill_arrow_array values = values) :=
  ⟨nonNullableBoolean_fill_eq, nullableBoolean_fill_eq⟩

/-- Counterexample to C9 as stated: the malformed text of 39 `'9'` bytes
followed by `'x'` fits the transit buffer of a `Decimal(38, 0)` column, yet
the appended value is not the integer value of its longest valid leading
signed-digit prefix (`10^39 - 1` exceeds the signed 128-bit range, so the
accumulator wraps). -/
theorem claim_c9_counterexample :
    (Decimal.fill_arrow_array ⟨true, 38, 0⟩
        [some (List.replicate 39 57 ++ [120])]).values ≠
      [some (longestSignedDigitPrefixValue
        ((List.replicate 39 57 ++ [120]).filter (fun c => c ≠ 46)))] := by
  decide

/-- C9 (amended): For every non-null decimal input text still containing
non-digit bytes after the `.` bytes are removed, the decimal fill appends the
128-bit result of the signed radix-10 scan of the stripped bytes — the longest
valid leading signed-digit prefix accumulated in two's-complement `i128`
arithmetic — ignoring the unconsumed remainder; it never appends a null slot
and never raises a row-level error. Whenever that digit run fits in 38 digits
(hence inside the signed 128-bit range) the appended value is exactly the
integer value of the prefix (0 when no prefix exists). -/
theorem claim_c9_decimal_malformed (d : Decimal) (view : List (Option (List Nat)))
    (i : Nat) (t : List Nat)
    (hrow : view.get? i = some (some t))
    (hmal : ∃ c ∈ t.filter (fun c => c ≠ 46), isDigitByte c = false) :
    (d.fill_arrow_array view).values.get? i =
      some (some ((from_radix_10_signed (t.filter (fun c => c ≠ 46))).1)) ∧
    ((digitRun (t.filter (fun c => c ≠ 46))).length ≤ 38 →
      (d.fill_arrow_array view).values.get? i =
        some (some (longestSignedDigitPrefixValue
          (t.filter (fun c => c ≠ 46))))) := by
  have h1 : (d.fill_arrow_array view).values.get? i =
      some (some ((from_radix_10_signed (t.filter (fun c => c ≠ 46))).1)) := by
    rw [fill_values_eq, List.get?_map, hrow]
    rfl
  exact ⟨h1, fun hlen => by rw [h1, from_radix_10_signed_eq _ hlen]⟩

/-- Witness for C9 at the malformed text `"12x45"`: its digit run is within
38 digits, so the appended value is the prefix value 12, in a non-null slot. -/
theorem claim_c9_witness :
    (Decimal.fill_arrow_array ⟨true, 5, 2⟩
        [some [49, 50, 120, 52, 53]]).values.get? 0 = some (some 12) :=
  (claim_c9_decimal_malformed ⟨true, 5, 2⟩ [some [49, 50, 120, 52, 53]] 0
    [49, 50, 120, 52, 53] rfl ⟨120, by decide, by decide⟩).2 (by decide)
